import Mathlib

/-!
Verification development for the `django_softdelete` package.

The embedding below translates `django_softdelete/models.py` and
`django_softdelete/managers.py` into Lean, at the level at which the source
operates: a database state is a list of records, a model's schema is the list
of relational field descriptors that Django's `self._meta.get_fields()` would
yield, and every Python method becomes a Lean function of the same shape.
Timestamps and transaction-id UUIDs are modelled as natural numbers; the
freshness of `uuid.uuid4()` is modelled by a counter in the state (a justified
assumption: distinct uuid4 draws are distinct).  Recursive cascades are given
a fuel parameter; running out of fuel is reported by a dedicated error that
stands for non-termination of the Python recursion.
-/

/-- Deletion timestamps, restore timestamps and the clock are naturals. -/
abbrev Time := Nat

/-- Transaction ids (`uuid4` values in the source) are modelled as naturals. -/
abbrev Marker := Nat

/-- Primary keys. -/
abbrev PK := Nat

/-- The on-delete policies of `django.db.models` that
`__delete_related_object` (models.py lines 246-304) dispatches on:
CASCADE, SET_NULL, PROTECT, SET_DEFAULT, SET, DO_NOTHING, RESTRICT, and
`other` for any further value (the source's final `else` branch, commented
"M2M"). -/
inductive OnDelete where
  | cascade
  | setNull
  | protect
  | setDefault
  | setCustom
  | doNothing
  | restrict
  | other
deriving DecidableEq, Repr

/-- One entry of `self._meta.get_fields()`: the static metadata of one
relational field, as consulted by `SoftDeleteModel.delete` / `restore`.
`forward` distinguishes a concrete forward field (ForeignKey / OneToOneField
declared on the model) from a reverse `ForeignObjectRel`.  `name` is
`field.name` (the accessor used by `getattr(self, field.name)`), `remoteName`
is `field.remote_field.name`, i.e. the name of the FK attribute on the record
that physically stores the key.  `onDelete` is present when the field object
itself has an `on_delete` attribute (reverse relations), `remoteOnDelete` when
`field.remote_field` has one (forward relations).  `remoteHasRQN` /
`selfHasRQN` record the two `hasattr(..., related_query_name)` probes of
`__delete_related_one_to_one` (models.py lines 360, 366). -/
structure ModelField where
  isGenericRelation : Bool := false
  relatedModel : Option String := none
  oneToOne : Bool := false
  oneToMany : Bool := false
  forward : Bool := false
  name : String := ""
  remoteName : String := ""
  onDelete : Option OnDelete := none
  remoteOnDelete : Option OnDelete := none
  remoteHasRQN : Bool := false
  selfHasRQN : Bool := false
  defaultFk : Option PK := none
  onDeleteSetFun : Option (String × PK → Option PK) := none

/-- Metadata of one model class: its name, whether it subclasses
`SoftDeleteModel` (the `issubclass(RelatedModel, SoftDeleteModel)` probe of
models.py lines 121, 183), and its `get_fields()` list. -/
structure ModelMeta where
  name : String
  isSoftDeleteModel : Bool := true
  fields : List ModelField := []

/-- A schema is the list of model classes of the app. -/
abbrev Schema := List ModelMeta

/-- One persisted record.  `deletedAt`, `restoredAt`, `transactionId` are the
three fields `SoftDeleteModel` adds (models.py lines 42-44); `fks` holds the
record's foreign-key attributes, keyed by attribute name. -/
structure Rec where
  model : String
  pk : PK
  deletedAt : Option Time := none
  restoredAt : Option Time := none
  transactionId : Option Marker := none
  fks : List (String × Option PK) := []
deriving DecidableEq, Repr

/-- Lifecycle notifications.  `preDelete` / `postDelete` are Django's own
signals; `postSoftDelete` / `postRestore` / `postHardDelete` come from
`django_softdelete/signals.py`. -/
inductive Event where
  | preDelete (model : String) (pk : PK)
  | postDelete (model : String) (pk : PK)
  | postSoftDelete (model : String) (pk : PK)
  | postRestore (model : String) (pk : PK)
  | postHardDelete (model : String) (pk : PK)
deriving DecidableEq, Repr

/-- The database state: the stored records, the uuid4 counter, the clock,
the log of signals sent so far, and the set of models whose `save` has been
patched to raise (the fault injection of `tests/test_models.py::test_atomic`,
which patches `Product.save` with a side effect that raises). -/
structure St where
  recs : List Rec
  nextUuid : Marker := 0
  clock : Time := 0
  events : List Event := []
  failSaves : List String := []
deriving DecidableEq, Repr

/-- Errors surfaced by the engine: `SoftDeleteException` (strict-mode
violation, carrying the offending related model's name, models.py lines
121-124 and 183-186), `ProtectedError` (carrying the root record and the
blocking related records, lines 276-279 and 297-301), `ValueError` (line 440),
a patched-save failure, and the out-of-fuel sentinel standing for a
non-terminating Python recursion. -/
inductive Err where
  | softDeleteException (modelName : String)
  | protectedError (rootModel : String) (rootPk : PK) (blocking : List (String × PK))
  | valueError
  | saveFailure (modelName : String)
  | outOfFuel
deriving DecidableEq, Repr

/-- Result of a (possibly failing) operation.  An error carries the state as
it stands while the exception propagates: signals already sent are not
unwound; row mutations are unwound by the enclosing `transaction.atomic`. -/
inductive Res where
  | ok (s : St)
  | err (e : Err) (s : St)
deriving DecidableEq, Repr

/-- Sequencing: run the continuation only when no exception is propagating. -/
def Res.andThen : Res → (St → Res) → Res
  | .ok s, f => f s
  | .err e s, _ => .err e s

/-- The `with transaction.atomic():` scope: on an exception, the row
mutations performed inside the scope are rolled back, while signals sent and
the uuid / clock counters (which are not database state) are kept, and the
exception keeps propagating. -/
def atomic (s0 : St) (f : St → Res) : Res :=
  match f s0 with
  | .ok s => .ok s
  | .err e s => .err e { s with recs := s0.recs }

/-- Send a signal. -/
def emit (s : St) (e : Event) : St :=
  { s with events := s.events ++ [e] }

/-- Read `timezone.now()`; the clock advances so successive reads differ. -/
def tick (s : St) : Time × St :=
  (s.clock, { s with clock := s.clock + 1 })

/-- Draw a fresh `uuid.uuid4()` (models.py line 108). -/
def freshUuid (s : St) : Marker × St :=
  (s.nextUuid, { s with nextUuid := s.nextUuid + 1 })

/-- Look a foreign-key attribute up on a record. -/
def findFk : List (String × Option PK) → String → Option PK
  | [], _ => none
  | (a, v) :: rest, k => if a = k then v else findFk rest k

/-- Overwrite a foreign-key attribute. -/
def setFk : List (String × Option PK) → String → Option PK → List (String × Option PK)
  | [], _, _ => []
  | (a, v) :: rest, k, w => if a = k then (a, w) :: rest else (a, v) :: setFk rest k w

/-- Fetch the record of a model with the given primary key (no deletion
filter: this is how Django's `_base_manager`, used by one-to-one accessors,
sees the table). -/
def getRec : List Rec → String → PK → Option Rec
  | [], _, _ => none
  | r :: rest, m, pk => if r.model = m ∧ r.pk = pk then some r else getRec rest m pk

/-- Apply an update to the row of the given model and primary key. -/
def mapRec (recs : List Rec) (m : String) (pk : PK) (f : Rec → Rec) : List Rec :=
  recs.map fun r => if r.model = m ∧ r.pk = pk then f r else r

/-- Remove the row of the given model and primary key (physical delete). -/
def removeRec : List Rec → String → PK → List Rec
  | [], _, _ => []
  | r :: rest, m, pk =>
    if r.model = m ∧ r.pk = pk then removeRec rest m pk
    else r :: removeRec rest m pk

/-- Look a model's metadata up in the schema. -/
def findModel : Schema → String → Option ModelMeta
  | [], _ => none
  | mm :: rest, n => if mm.name = n then some mm else findModel rest n

/-- The `issubclass(RelatedModel, SoftDeleteModel)` probe. -/
def isSoftModel (sch : Schema) (n : String) : Bool :=
  match findModel sch n with
  | some mm => mm.isSoftDeleteModel
  | none => false

/-- A model's `self._meta.get_fields()` list. -/
def fieldsOf (sch : Schema) (n : String) : List ModelField :=
  match findModel sch n with
  | some mm => mm.fields
  | none => []

/-- The records a related manager for a one-to-many relation enumerates:
records of the related model whose FK attribute points at the given primary
key.  When the related model is a `SoftDeleteModel`, its default manager is
`SoftDeleteManager` (managers.py lines 100-109), so the related manager only
yields rows with `deleted_at IS NULL`; a plain model's default manager has no
such filter. -/
def childrenOf (recs : List Rec) (rm attr : String) (pk : PK) (onlyActive : Bool) :
    List Rec :=
  match recs with
  | [] => []
  | r :: rest =>
    if r.model = rm ∧ findFk r.fks attr = some pk ∧ (onlyActive = true → r.deletedAt = none)
    then r :: childrenOf rest rm attr pk onlyActive
    else childrenOf rest rm attr pk onlyActive

/-- The queryset `remote_model.deleted_objects.filter(**{remote_field.name:
self, "transaction_id": transaction_id})` of
`__restore_related_one_to_many` (models.py lines 442-444). -/
def deletedChildrenTid (recs : List Rec) (rm attr : String) (pk : PK)
    (tid : Option Marker) : List Rec :=
  match recs with
  | [] => []
  | r :: rest =>
    if r.model = rm ∧ r.deletedAt ≠ none ∧ findFk r.fks attr = some pk ∧ r.transactionId = tid
    then r :: deletedChildrenTid rest rm attr pk tid
    else deletedChildrenTid rest rm attr pk tid

/-- Resolve a reverse one-to-one accessor: the unique record of the related
model whose FK attribute stores this record's primary key. -/
def findReverseO2O : List Rec → String → String → PK → Option Rec
  | [], _, _, _ => none
  | r :: rest, rm, attr, pk =>
    if r.model = rm ∧ findFk r.fks attr = some pk then some r
    else findReverseO2O rest rm attr pk

/-- The `related_object = getattr(self, field.name, None)` of the one-to-one
walks (models.py lines 350, 420).  A forward accessor follows the record's own
FK attribute; a reverse accessor searches the related model's table.  Both use
`_base_manager`, so soft-deleted rows are visible; a missing related row
resolves to `None` (Django's RelatedObjectDoesNotExist subclasses
AttributeError, so `getattr(..., None)` absorbs it). -/
def getO2ORelated (recs : List Rec) (f : ModelField) (rm selfModel : String)
    (selfPk : PK) : Option Rec :=
  if f.forward then
    match getRec recs selfModel selfPk with
    | none => none
    | some selfRec =>
      match findFk selfRec.fks f.name with
      | none => none
      | some tpk => getRec recs rm tpk
  else
    findReverseO2O recs rm f.remoteName selfPk

/-- The field assignment and `save(update_fields=['deleted_at',
'restored_at', 'transaction_id'])` of `delete` (models.py lines 145-150).
A patched `save` raises instead. -/
def save3Delete (s : St) (m : String) (pk : PK) (now : Time) (tid : Marker) : Res :=
  if m ∈ s.failSaves then .err (.saveFailure m) s
  else .ok { s with recs := mapRec s.recs m pk fun r =>
    { r with deletedAt := some now, restoredAt := none, transactionId := some tid } }

/-- The field assignment and save of `restore` (models.py lines 168-170,
205-208): `deleted_at = None`, `restored_at = now`, `transaction_id = None`. -/
def save3Restore (s : St) (m : String) (pk : PK) (now : Time) : Res :=
  if m ∈ s.failSaves then .err (.saveFailure m) s
  else .ok { s with recs := mapRec s.recs m pk fun r =>
    { r with deletedAt := none, restoredAt := some now, transactionId := none } }

/-- `setattr(related_object, field.remote_field.name, value)` followed by
`related_object.save()` (the SET_NULL / SET_DEFAULT / SET branches,
models.py lines 260-262, 281-290). -/
def saveSetFk (s : St) (relObj : Rec) (attr : String) (v : Option PK) : Res :=
  if relObj.model ∈ s.failSaves then .err (.saveFailure relObj.model) s
  else .ok { s with recs := mapRec s.recs relObj.model relObj.pk fun r =>
    { r with fks := setFk r.fks attr v } }

/-- The trailing `related_object.save()` of `__delete_related_object` /
`__restore_related_object` (models.py lines 306-310, 333-337): a full save of
the instance.  At every point it is reached the instance's fields coincide
with its stored row (the branch that just ran either saved the same instance
or recursed through it), so on the stored state it is a no-op - but it is
still a `save` call and is subject to the fault injection. -/
def resave (s : St) (m : String) : Res :=
  if m ∈ s.failSaves then .err (.saveFailure m) s else .ok s

/-- A plain Django `Model.delete()` on a model that is not a
`SoftDeleteModel` (the non-soft CASCADE arm, models.py line 259): the row is
physically removed and Django itself sends `pre_delete` and `post_delete`.
(Physical FK cascading below such a row is not modelled; the schemas used
here give non-soft models no dependents.) -/
def djangoDelete (s : St) (r : Rec) : Res :=
  let s1 := emit s (.preDelete r.model r.pk)
  let s2 := { s1 with recs := removeRec s1.recs r.model r.pk }
  .ok (emit s2 (.postDelete r.model r.pk))

/-- The `SoftDeleteModel.__delete_related_object` method (models.py lines
213-310).  `recurse` is the nested `SoftDeleteModel.delete` call with one
unit of fuel consumed; its arguments are model, pk, strict, transaction_id,
and the `o2o_model` / `o2o_remote` kwargs. -/
def deleteRelatedObject (sch : Schema)
    (recurse : String → PK → Bool → Option Marker → Option Marker → Option Marker → St → Res)
    (selfModel : String) (selfPk : PK) (f : ModelField) (relObj : Rec)
    (strict : Bool) (tid : Marker) (o2oM o2oR : Option Marker) (s : St) : Res :=
  -- lines 246-251: on_delete from the field, else from remote_field, else return
  match (match f.onDelete with | some od => some od | none => f.remoteOnDelete) with
  | none => .ok s
  | some od =>
    let step : Res :=
      match od with
      | .cascade =>
        -- lines 253-259; `if strict: kwargs['strict'] = strict` is equivalent
        -- to passing strict through, since the callee's default is False
        if isSoftModel sch relObj.model then
          recurse relObj.model relObj.pk strict (some tid) o2oM o2oR s
        else
          djangoDelete s relObj
      | .setNull => saveSetFk s relObj f.remoteName none
      | .protect =>
        -- lines 264-279: raise ProtectedError naming self and related_object,
        -- with protected_objects = the related manager's current (active) rows
        .err (.protectedError selfModel selfPk
          ((childrenOf s.recs relObj.model f.remoteName selfPk
             (isSoftModel sch relObj.model)).map fun r => (r.model, r.pk))) s
      | .setDefault => saveSetFk s relObj f.remoteName f.defaultFk
      | .setCustom =>
        match f.onDeleteSetFun with
        | some g => saveSetFk s relObj f.remoteName (g (selfModel, selfPk))
        | none => .ok s
      | .doNothing => .ok s
      | .restrict =>
        -- lines 295-301: raise ProtectedError with [related_object]
        .err (.protectedError selfModel selfPk [(relObj.model, relObj.pk)]) s
      | .other =>
        -- line 303-304: related_object.delete(strict=strict) - note: no
        -- transaction_id is forwarded on this branch
        if isSoftModel sch relObj.model then
          recurse relObj.model relObj.pk strict none o2oM o2oR s
        else
          djangoDelete s relObj
    step.andThen fun s2 =>
      -- lines 306-310: skipped when the physical delete nulled the pk
      if (od = .cascade ∨ od = .other) ∧ isSoftModel sch relObj.model = false then .ok s2
      else resave s2 relObj.model

/-- The `SoftDeleteModel.__delete_related_one_to_one` method (models.py lines
339-371): locate the single related record; the two `hasattr` probes pick the
forward or reverse side, and the `o2o_model` / `o2o_remote` kwargs, compared
against the current transaction id, stop the same physical relationship from
being walked back from the opposite declaration within one cascade pass. -/
def deleteRelatedOneToOne (sch : Schema)
    (recurse : String → PK → Bool → Option Marker → Option Marker → Option Marker → St → Res)
    (selfModel : String) (selfPk : PK) (f : ModelField) (rm : String)
    (strict : Bool) (tid : Marker) (o2oM o2oR : Option Marker) (s : St) : Res :=
  match getO2ORelated s.recs f rm selfModel selfPk with
  | none => .ok s
  | some relObj =>
    if f.remoteHasRQN then
      if o2oM ≠ some tid then
        deleteRelatedObject sch recurse selfModel selfPk f relObj strict tid o2oM (some tid) s
      else .ok s
    else if f.selfHasRQN then
      if o2oR ≠ some tid then
        deleteRelatedObject sch recurse selfModel selfPk f relObj strict tid (some tid) o2oR s
      else .ok s
    else .ok s

/-- The loop body of `__delete_related_one_to_many` (models.py lines 386-389),
folding `__delete_related_object` over the snapshot of related records. -/
def deleteChildList (sch : Schema)
    (recurse : String → PK → Bool → Option Marker → Option Marker → Option Marker → St → Res)
    (selfModel : String) (selfPk : PK) (f : ModelField)
    (strict : Bool) (tid : Marker) (o2oM o2oR : Option Marker) :
    List Rec → St → Res
  | [], s => .ok s
  | c :: rest, s =>
    (deleteRelatedObject sch recurse selfModel selfPk f c strict tid o2oM o2oR s).andThen
      (deleteChildList sch recurse selfModel selfPk f strict tid o2oM o2oR rest)

/-- The `SoftDeleteModel.__delete_related_one_to_many` method (models.py lines
373-389): enumerate the currently related records (through the related
manager, hence only active rows for a soft-delete related model) and apply the
policy to each. -/
def deleteRelatedOneToMany (sch : Schema)
    (recurse : String → PK → Bool → Option Marker → Option Marker → Option Marker → St → Res)
    (selfModel : String) (selfPk : PK) (f : ModelField) (rm : String)
    (strict : Bool) (tid : Marker) (o2oM o2oR : Option Marker) (s : St) : Res :=
  deleteChildList sch recurse selfModel selfPk f strict tid o2oM o2oR
    (childrenOf s.recs rm f.remoteName selfPk (isSoftModel sch rm)) s

/-- The field loop of `SoftDeleteModel.delete` (models.py lines 110-143):
skip generic relations and fields with no related model, raise
`SoftDeleteException` in strict mode when the related model is not a
`SoftDeleteModel`, then dispatch on cardinality (many-to-one and many-to-many
fields fall through to `continue`). -/
def walkDeleteFields (sch : Schema)
    (recurse : String → PK → Bool → Option Marker → Option Marker → Option Marker → St → Res)
    (selfModel : String) (selfPk : PK)
    (strict : Bool) (tid : Marker) (o2oM o2oR : Option Marker) :
    List ModelField → St → Res
  | [], s => .ok s
  | f :: rest, s =>
    let step : Res :=
      if f.isGenericRelation then .ok s
      else
        match f.relatedModel with
        | none => .ok s
        | some rm =>
          if strict ∧ ¬ isSoftModel sch rm then .err (.softDeleteException rm) s
          else if f.oneToOne then
            deleteRelatedOneToOne sch recurse selfModel selfPk f rm strict tid o2oM o2oR s
          else if f.oneToMany then
            deleteRelatedOneToMany sch recurse selfModel selfPk f rm strict tid o2oM o2oR s
          else .ok s
    step.andThen (walkDeleteFields sch recurse selfModel selfPk strict tid o2oM o2oR rest)

/-- The `SoftDeleteModel.delete` method (models.py lines 84-154): send
`pre_delete`, read the clock, draw a fresh transaction id when none was
supplied, then inside one atomic scope walk the fields, persist the root's
three deletion-state fields, and send `post_soft_delete`.  The trailing
`Option Marker` pair is the `o2o_model` / `o2o_remote` kwargs (absent at a
top-level call). -/
def SoftDeleteModel.delete (sch : Schema) :
    Nat → String → PK → Bool → Option Marker → Option Marker → Option Marker → St → Res
  | 0, _, _, _, _, _, _, s => .err .outOfFuel s
  | fuel + 1, model, pk, strict, tid?, o2oM, o2oR, s0 =>
    let s1 := emit s0 (.preDelete model pk)
    let p := tick s1
    let q : Marker × St :=
      match tid? with
      | some t => (t, p.2)
      | none => freshUuid p.2
    atomic q.2 fun s =>
      (walkDeleteFields sch (SoftDeleteModel.delete sch fuel) model pk strict q.1 o2oM o2oR
          (fieldsOf sch model) s).andThen fun s4 =>
        (save3Delete s4 model pk p.1 q.1).andThen fun s5 =>
          .ok (emit s5 (.postSoftDelete model pk))

/-- The `SoftDeleteModel.__restore_related_object` method (models.py lines
312-337): restore the related record when it is soft-deleted, forwarding
strict and the transaction id, then the trailing full save. -/
def restoreRelatedObject (sch : Schema)
    (recurse : String → PK → Bool → Option Marker → St → Res)
    (r : Rec) (strict : Bool) (tid : Option Marker) (s : St) : Res :=
  if r.deletedAt ≠ none then
    (recurse r.model r.pk strict tid s).andThen fun s2 => resave s2 r.model
  else .ok s

/-- The `SoftDeleteModel.__restore_related_one_to_one` method (models.py
lines 411-424): restore the single related record only when its own stored
`transaction_id` equals the marker of this restore pass. -/
def restoreRelatedOneToOne (sch : Schema)
    (recurse : String → PK → Bool → Option Marker → St → Res)
    (selfModel : String) (selfPk : PK) (f : ModelField) (rm : String)
    (strict : Bool) (tid : Option Marker) (s : St) : Res :=
  match getO2ORelated s.recs f rm selfModel selfPk with
  | none => .ok s
  | some r =>
    if r.transactionId = tid then restoreRelatedObject sch recurse r strict tid s
    else .ok s

/-- The loop of `__restore_related_one_to_many` (models.py lines 442-447). -/
def restoreChildList (sch : Schema)
    (recurse : String → PK → Bool → Option Marker → St → Res)
    (strict : Bool) (tid : Option Marker) : List Rec → St → Res
  | [], s => .ok s
  | c :: rest, s =>
    (restoreRelatedObject sch recurse c strict tid s).andThen
      (restoreChildList sch recurse strict tid rest)

/-- The `SoftDeleteModel.__restore_related_one_to_many` method (models.py
lines 426-447): require the related model to be a `SoftDeleteModel` (else
`ValueError`), then restore exactly the soft-deleted related records whose
stored `transaction_id` equals this pass's marker. -/
def restoreRelatedOneToMany (sch : Schema)
    (recurse : String → PK → Bool → Option Marker → St → Res)
    (selfModel : String) (selfPk : PK) (f : ModelField) (rm : String)
    (strict : Bool) (tid : Option Marker) (s : St) : Res :=
  if ¬ isSoftModel sch rm then .err .valueError s
  else
    restoreChildList sch recurse strict tid
      (deletedChildrenTid s.recs rm f.remoteName selfPk tid) s

/-- The field loop of `SoftDeleteModel.restore` (models.py lines 173-204);
the one-to-many branch is wrapped in `try ... except ValueError: continue`. -/
def walkRestoreFields (sch : Schema)
    (recurse : String → PK → Bool → Option Marker → St → Res)
    (selfModel : String) (selfPk : PK) (strict : Bool) (tid : Option Marker) :
    List ModelField → St → Res
  | [], s => .ok s
  | f :: rest, s =>
    let step : Res :=
      if f.isGenericRelation then .ok s
      else
        match f.relatedModel with
        | none => .ok s
        | some rm =>
          if strict ∧ ¬ isSoftModel sch rm then .err (.softDeleteException rm) s
          else if f.oneToOne then
            restoreRelatedOneToOne sch recurse selfModel selfPk f rm strict tid s
          else if f.oneToMany then
            match restoreRelatedOneToMany sch recurse selfModel selfPk f rm strict tid s with
            | .err .valueError s2 => .ok s2
            | r => r
          else .ok s
    step.andThen (walkRestoreFields sch recurse selfModel selfPk strict tid rest)

/-- The `SoftDeleteModel.restore` method (models.py lines 156-209): read the
clock, fall back to the record's own stored `transaction_id` when none is
supplied, then inside one atomic scope walk the fields, persist
`deleted_at = None`, `restored_at = now`, `transaction_id = None`, and send
`post_restore`. -/
def SoftDeleteModel.restore (sch : Schema) :
    Nat → String → PK → Bool → Option Marker → St → Res
  | 0, _, _, _, _, s => .err .outOfFuel s
  | fuel + 1, model, pk, strict, tid?, s0 =>
    let p := tick s0
    let tid : Option Marker :=
      match tid? with
      | some t => some t
      | none =>
        match getRec p.2.recs model pk with
        | some r => r.transactionId
        | none => none
    atomic p.2 fun s =>
      (walkRestoreFields sch (SoftDeleteModel.restore sch fuel) model pk strict tid
          (fieldsOf sch model) s).andThen fun s2 =>
        (save3Restore s2 model pk p.1).andThen fun s3 =>
          .ok (emit s3 (.postRestore model pk))

/-- The rows a queryset of `SoftDeleteManager` yields, restricted by a caller
predicate: rows of the model with `deleted_at IS NULL` (managers.py lines
107-109), snapshotted in table order. -/
def activeMembers (recs : List Rec) (m : String) (pred : Rec → Bool) : List Rec :=
  match recs with
  | [] => []
  | r :: rest =>
    if r.model = m ∧ r.deletedAt = none ∧ pred r = true
    then r :: activeMembers rest m pred
    else activeMembers rest m pred

/-- The loop of `SoftDeleteQuerySet.delete` (managers.py lines 17-18): call
the single-record soft delete on each snapshotted member, passing `strict`
and no transaction id. -/
def deleteEach (sch : Schema) (fuel : Nat) (strict : Bool) : List Rec → St → Res
  | [], s => .ok s
  | r :: rest, s =>
    (SoftDeleteModel.delete sch fuel r.model r.pk strict none none none s).andThen
      (deleteEach sch fuel strict rest)

/-- The `SoftDeleteQuerySet.delete` method (managers.py lines 13-19):
`for obj in self.all(): obj.delete(strict=strict)`. -/
def SoftDeleteQuerySet.delete (sch : Schema) (fuel : Nat) (m : String)
    (pred : Rec → Bool) (strict : Bool) (s : St) : Res :=
  deleteEach sch fuel strict (activeMembers s.recs m pred) s

/-- Follows the spec's words, for the refinement claim: "calling
single-record delete on each member of Q individually" - the same snapshot of
Q's members, each passed to the single-record soft delete in turn. -/
def specDeleteList (sch : Schema) (fuel : Nat) (strict : Bool) : List Rec → St → Res
  | [], s => .ok s
  | r :: rest, s =>
    match SoftDeleteModel.delete sch fuel r.model r.pk strict none none none s with
    | .ok s2 => specDeleteList sch fuel strict rest s2
    | .err e s2 => .err e s2

/-- Follows the spec's words: the per-record reference operation the bulk
delete is compared against. -/
def specPerMemberDelete (sch : Schema) (fuel : Nat) (m : String)
    (pred : Rec → Bool) (strict : Bool) (s : St) : Res :=
  specDeleteList sch fuel strict (activeMembers s.recs m pred) s

/-- Number of rows of a model in the Active view. -/
def activeCount (s : St) (m : String) : Nat :=
  (activeMembers s.recs m fun _ => true).length

/-- Rows of a model in the Deleted view. -/
def deletedMembers (recs : List Rec) (m : String) : List Rec :=
  match recs with
  | [] => []
  | r :: rest =>
    if r.model = m ∧ r.deletedAt ≠ none then r :: deletedMembers rest m
    else deletedMembers rest m

/-- Number of rows of a model in the Deleted view. -/
def deletedCount (s : St) (m : String) : Nat :=
  (deletedMembers s.recs m).length

/-!
Scenario schemas, mirroring the shapes of `test_app/models.py`:
`Product` has a forward `ForeignKey(Category, CASCADE)`, a forward
`OneToOneField(ProductLanding, CASCADE)`, and reverse one-to-many relations
from `Option` (CASCADE), `Order` (PROTECT) and `Lead` (SET_NULL); `Category`
has the reverse relation from `Product` (CASCADE).  Field order within
`get_fields()` is fixed by the schema literal.
-/

/-- Metadata of `Category`. -/
def categoryMeta : ModelMeta :=
  { name := "category",
    fields := [
      { relatedModel := some "product", oneToMany := true, name := "product_set",
        remoteName := "category", onDelete := some .cascade } ] }

/-- Metadata of `Product`. -/
def productMeta : ModelMeta :=
  { name := "product",
    fields := [
      { relatedModel := some "category", forward := true, name := "category",
        remoteName := "product", remoteOnDelete := some .cascade },
      { relatedModel := some "landing", oneToOne := true, forward := true,
        name := "landing", remoteName := "product", remoteOnDelete := some .cascade,
        remoteHasRQN := true },
      { relatedModel := some "option", oneToMany := true, name := "option_set",
        remoteName := "product", onDelete := some .cascade },
      { relatedModel := some "order", oneToMany := true, name := "order_set",
        remoteName := "product", onDelete := some .protect },
      { relatedModel := some "lead", oneToMany := true, name := "lead_set",
        remoteName := "product", onDelete := some .setNull } ] }

/-- Metadata of `ProductLanding`: the reverse side of Product's one-to-one. -/
def landingMeta : ModelMeta :=
  { name := "landing",
    fields := [
      { relatedModel := some "product", oneToOne := true, name := "product",
        remoteName := "landing", onDelete := some .cascade, selfHasRQN := true } ] }

/-- Metadata of `Option`. -/
def optionMeta : ModelMeta :=
  { name := "option",
    fields := [
      { relatedModel := some "product", forward := true, name := "product",
        remoteName := "option", remoteOnDelete := some .cascade } ] }

/-- Metadata of `Order` (PROTECT towards Product). -/
def orderMeta : ModelMeta :=
  { name := "order",
    fields := [
      { relatedModel := some "product", forward := true, name := "product",
        remoteName := "order", remoteOnDelete := some .protect } ] }

/-- Metadata of `Lead` (SET_NULL towards Product). -/
def leadMeta : ModelMeta :=
  { name := "lead",
    fields := [
      { relatedModel := some "product", forward := true, name := "product",
        remoteName := "lead", remoteOnDelete := some .setNull } ] }

/-- The test-app schema. -/
def appSchema : Schema :=
  [categoryMeta, productMeta, landingMeta, optionMeta, orderMeta, leadMeta]

/-- C1 fixture: product 1 was soft-deleted together with options 11 and 12
under marker `M`; option 13 points at the same product but was soft-deleted
independently under marker `Mx`, and so was the product's one-to-one landing
2. -/
def c1St (M Mx : Marker) : St :=
  { recs := [
      { model := "product", pk := 1, deletedAt := some 50, transactionId := some M,
        fks := [("category", none), ("landing", some 2)] },
      { model := "landing", pk := 2, deletedAt := some 40, transactionId := some Mx },
      { model := "option", pk := 11, deletedAt := some 50, transactionId := some M,
        fks := [("product", some 1)] },
      { model := "option", pk := 12, deletedAt := some 50, transactionId := some M,
        fks := [("product", some 1)] },
      { model := "option", pk := 13, deletedAt := some 40, transactionId := some Mx,
        fks := [("product", some 1)] } ],
    nextUuid := 90, clock := 60 }

/-- Fixture for the one-to-one restore cascade: product 1 and its landing 2
were soft-deleted together under marker 5. -/
def c1o2oSt : St :=
  { recs := [
      { model := "product", pk := 1, deletedAt := some 50, transactionId := some 5,
        fks := [("category", none), ("landing", some 2)] },
      { model := "landing", pk := 2, deletedAt := some 50, transactionId := some 5 } ],
    nextUuid := 90, clock := 60 }

/-- C2 fixture: one active product with arbitrary primary key and arbitrary
initial `restored_at` / `transaction_id`. -/
def c2St (p : PK) (r0 : Option Time) (t0 : Option Marker) : St :=
  { recs := [
      { model := "product", pk := p, restoredAt := r0, transactionId := t0,
        fks := [("category", none), ("landing", none)] } ] }

/-- C3 fixture (PROTECT): product 1 with an Option child (CASCADE, walked
first) and an Order child (PROTECT). -/
def c3St : St :=
  { recs := [
      { model := "product", pk := 1, fks := [("category", none), ("landing", none)] },
      { model := "option", pk := 11, fks := [("product", some 1)] },
      { model := "order", pk := 21, fks := [("product", some 1)] } ] }

/-- Metadata of a category whose products are related with RESTRICT
(`ProductRestrictedCategory` in the test app). -/
def categoryRMeta : ModelMeta :=
  { name := "categoryr",
    fields := [
      { relatedModel := some "productrc", oneToMany := true, name := "productrc_set",
        remoteName := "category", onDelete := some .restrict } ] }

/-- Metadata of `ProductRestrictedCategory`. -/
def productRCMeta : ModelMeta :=
  { name := "productrc",
    fields := [
      { relatedModel := some "categoryr", forward := true, name := "category",
        remoteName := "productrc", remoteOnDelete := some .restrict } ] }

/-- Schema of the RESTRICT scenario. -/
def restrictSchema : Schema := [categoryRMeta, productRCMeta]

/-- C3 fixture (RESTRICT): category 1 with a restricted product 31. -/
def c3rSt : St :=
  { recs := [
      { model := "categoryr", pk := 1 },
      { model := "productrc", pk := 31, fks := [("category", some 1)] } ] }

/-- C4 fixture: product 1 with an Option child; `Product.save` is patched to
raise, as in `tests/test_models.py::test_atomic`. -/
def c4St : St :=
  { recs := [
      { model := "product", pk := 1, fks := [("category", none), ("landing", none)] },
      { model := "option", pk := 11, fks := [("product", some 1)] } ],
    failSaves := ["product"] }

/-- C5 fixture: one active product, no related rows. -/
def c5St : St :=
  { recs := [
      { model := "product", pk := 1, fks := [("category", none), ("landing", none)] } ] }

/-- Metadata of `ProductNotSoftRelations`: a soft-delete model with a CASCADE
child model that is itself soft (walked first) and a reverse relation from
the plain (non-soft) `NotSoftRelatedModel`. -/
def productNSMeta : ModelMeta :=
  { name := "productns",
    fields := [
      { relatedModel := some "optionns", oneToMany := true, name := "optionns_set",
        remoteName := "product", onDelete := some .cascade },
      { relatedModel := some "notsoft", oneToMany := true, name := "notsoft_set",
        remoteName := "product", onDelete := some .cascade } ] }

/-- Metadata of the soft CASCADE child in the strict scenario. -/
def optionNSMeta : ModelMeta :=
  { name := "optionns",
    fields := [
      { relatedModel := some "productns", forward := true, name := "product",
        remoteName := "optionns", remoteOnDelete := some .cascade } ] }

/-- Metadata of `NotSoftRelatedModel`: not a `SoftDeleteModel`. -/
def notSoftMeta : ModelMeta :=
  { name := "notsoft", isSoftDeleteModel := false,
    fields := [
      { relatedModel := some "productns", forward := true, name := "product",
        remoteName := "notsoft", remoteOnDelete := some .cascade } ] }

/-- Schema of the strict-mode scenario. -/
def strictSchema : Schema := [productNSMeta, optionNSMeta, notSoftMeta]

/-- C6 fixture: productns 1 with a soft child 11 and a non-soft child 21. -/
def c6St : St :=
  { recs := [
      { model := "productns", pk := 1 },
      { model := "optionns", pk := 11, fks := [("product", some 1)] },
      { model := "notsoft", pk := 21, fks := [("product", some 1)] } ] }

/-- C9 fixture for the reciprocal one-to-one pair: an active product 1 with
its landing 2. -/
def c9St : St :=
  { recs := [
      { model := "product", pk := 1, fks := [("category", none), ("landing", some 2)] },
      { model := "landing", pk := 2 } ] }

/-- Metadata of the three-model one-to-one cycle a -> b -> c -> a: each model
declares a forward one-to-one to the next (field name `tonext`) and carries
the reverse declaration from the previous. -/
def cycleMeta (me prev next : String) : ModelMeta :=
  { name := me,
    fields := [
      { relatedModel := some prev, oneToOne := true, name := "back",
        remoteName := "tonext", onDelete := some .cascade, selfHasRQN := true },
      { relatedModel := some next, oneToOne := true, forward := true, name := "tonext",
        remoteName := "back", remoteOnDelete := some .cascade, remoteHasRQN := true } ] }

/-- Schema of the one-to-one three-cycle. -/
def cycleSchema : Schema :=
  [cycleMeta "a" "c" "b", cycleMeta "b" "a" "c", cycleMeta "c" "b" "a"]

/-- C9 counterexample fixture: rows a, b, c, each one-to-one linked to the
next around the cycle. -/
def cycleSt : St :=
  { recs := [
      { model := "a", pk := 1, fks := [("tonext", some 1)] },
      { model := "b", pk := 1, fks := [("tonext", some 1)] },
      { model := "c", pk := 1, fks := [("tonext", some 1)] } ],
    nextUuid := 7 }

/-- C10 fixture: two active products, each with one Option child. -/
def c10St : St :=
  { recs := [
      { model := "product", pk := 1, fks := [("category", none), ("landing", none)] },
      { model := "product", pk := 2, fks := [("category", none), ("landing", none)] },
      { model := "option", pk := 11, fks := [("product", some 1)] },
      { model := "option", pk := 12, fks := [("product", some 2)] } ] }

/-- The state after soft-deleting product 1 of the `c9St` fixture: the
product and its one-to-one landing were deleted together under the fresh
marker 0 (this is the successful-delete half of the round trip on a record
with a one-to-one dependent). -/
def c2MidSt : St :=
  { recs := [
      { model := "product", pk := 1, deletedAt := some 0, transactionId := some 0,
        fks := [("category", none), ("landing", some 2)] },
      { model := "landing", pk := 2, deletedAt := some 1, transactionId := some 0 } ],
    nextUuid := 1, clock := 2,
    events := [.preDelete "product" 1, .preDelete "landing" 2,
               .postSoftDelete "landing" 2, .postSoftDelete "product" 1] }

/-- Mutual exclusion of the two timestamps on one record: `deleted_at` and
`restored_at` are never both non-null. -/
abbrev recMutex (r : Rec) : Prop := r.deletedAt = none ∨ r.restoredAt = none

/-- The state invariant: every stored record satisfies the mutual-exclusion
property. -/
abbrev stInv (s : St) : Prop := ∀ r ∈ s.recs, recMutex r

/-- The invariant on an operation's outcome: it holds for the resulting
state whether the operation completed or ended in a propagating exception. -/
def resInv : Res → Prop
  | .ok s => stInv s
  | .err _ s => stInv s

/-!
Theorems.  General lemmas first, then one theorem per claim.
-/

/-- Projection fact: sending a signal does not change the stored rows. -/
theorem emit_recs (s : St) (e : Event) : (emit s e).recs = s.recs := rfl

/-- Projection fact: reading the clock does not change the stored rows. -/
theorem tick_recs (s : St) : (tick s).2.recs = s.recs := rfl

/-- Projection fact: drawing a uuid does not change the stored rows. -/
theorem freshUuid_recs (s : St) : (freshUuid s).2.recs = s.recs := rfl

/-- C4: soft delete is atomic.  Whenever `SoftDeleteModel.delete` ends in an
exception - a strict-mode violation, a protected relation, a storage failure
while persisting any record, or the non-termination sentinel - the stored
rows afterwards are exactly the stored rows before the call: every mutation
performed by the call and by all of its recursive descendants has been rolled
back.  (Signals already sent and the uuid / clock counters are not database
state and survive, as in the source.) -/
theorem c4_delete_rolls_back_on_any_error :
    ∀ (sch : Schema) (fuel : Nat) (model : String) (pk : PK) (strict : Bool)
      (tid? o2oM o2oR : Option Marker) (s : St) (e : Err) (s' : St),
      SoftDeleteModel.delete sch fuel model pk strict tid? o2oM o2oR s = .err e s' →
      s'.recs = s.recs := by
  intro sch fuel model pk strict tid? o2oM o2oR s e s' h
  cases fuel with
  | zero =>
    simp only [SoftDeleteModel.delete] at h
    injection h with h1 h2
    rw [← h2]
  | succ fuel =>
    simp only [SoftDeleteModel.delete] at h
    cases tid? with
    | some t =>
      simp only [atomic] at h
      split at h
      · exact absurd h (by simp)
      · injection h with h1 h2
        rw [← h2]
        simp [tick, emit, freshUuid]
    | none =>
      simp only [atomic] at h
      split at h
      · exact absurd h (by simp)
      · injection h with h1 h2
        rw [← h2]
        simp [tick, emit, freshUuid]

/-- Witness for C4: with `Product.save` patched to raise (the fixture of
`test_atomic`), the delete of product 1 cascades to option 11 (its signals
fire), then fails persisting the root, and the rows afterwards equal the rows
before. -/
theorem c4_delete_rolls_back_on_any_error_witness :
    SoftDeleteModel.delete appSchema 3 "product" 1 false none none none c4St =
      .err (.saveFailure "product")
        { recs := c4St.recs, nextUuid := 1, clock := 2,
          events := [.preDelete "product" 1, .preDelete "option" 11,
                     .postSoftDelete "option" 11],
          failSaves := ["product"] } ∧
    (St.mk c4St.recs 1 2
        [.preDelete "product" 1, .preDelete "option" 11, .postSoftDelete "option" 11]
        ["product"]).recs = c4St.recs :=
  ⟨by decide,
   c4_delete_rolls_back_on_any_error appSchema 3 "product" 1 false none none none
     c4St (.saveFailure "product") _ (by decide)⟩

/-- C3: a PROTECT / RESTRICT dependent blocks soft deletion.  In the PROTECT
scenario the cascade first soft-deletes the Option child, then hits the
Order child whose policy is PROTECT: the call raises a ProtectedError naming
the root (product 1) and the blocking related record (order 21), and the
rows afterwards are exactly the initial rows - product, option and order are
all still active, the whole transaction rolled back.  The RESTRICT scenario
behaves the same with the blocking record list `[productrc 31]`. -/
theorem c3_protect_restrict_block_and_roll_back :
    SoftDeleteModel.delete appSchema 3 "product" 1 false none none none c3St =
      .err (.protectedError "product" 1 [("order", 21)])
        { recs := c3St.recs, nextUuid := 1, clock := 2,
          events := [.preDelete "product" 1, .preDelete "option" 11,
                     .postSoftDelete "option" 11] } ∧
    SoftDeleteModel.delete restrictSchema 2 "categoryr" 1 false none none none c3rSt =
      .err (.protectedError "categoryr" 1 [("productrc", 31)])
        { recs := c3rSt.recs, nextUuid := 1, clock := 1,
          events := [.preDelete "categoryr" 1] } := by
  constructor
  · decide
  · decide

/-- C5: a completed soft delete sends `pre_delete` before any row is touched
and `post_soft_delete` after the root's fields are set - but it never sends
the generic `post_delete` signal (`post_delete` is imported in models.py line
5 and never sent), although `tests/test_models.py::test_signal_calls_on_soft_delete`
asserts `post_delete` is called exactly once during `product.delete()`. -/
theorem c5_soft_delete_sends_no_generic_post_delete :
    SoftDeleteModel.delete appSchema 1 "product" 1 false none none none c5St =
      .ok { recs := [ { model := "product", pk := 1, deletedAt := some 0,
                        restoredAt := none, transactionId := some 0,
                        fks := [("category", none), ("landing", none)] } ],
            nextUuid := 1, clock := 1,
            events := [.preDelete "product" 1, .postSoftDelete "product" 1] } ∧
    Event.postDelete "product" 1 ∉
      [Event.preDelete "product" 1, Event.postSoftDelete "product" 1] := by
  constructor
  · decide
  · decide

/-- C6: in strict mode, reaching a relational field whose related model is
not a `SoftDeleteModel` raises `SoftDeleteException` naming the offending
model, and the whole atomic operation aborts.  First conjunct: the general
fact about the field walk; second conjunct: the scenario - the cascade first
soft-deletes the conforming child optionns 11, then hits the non-soft model
`notsoft`, raises, and the rows afterwards equal the initial rows. -/
theorem c6_strict_mode_violation_aborts :
    (∀ (sch : Schema) recurse (model : String) (pk : PK) (tid : Marker)
       (o2oM o2oR : Option Marker) (rest : List ModelField) (s : St)
       (f : ModelField) (rm : String),
       f.isGenericRelation = false → f.relatedModel = some rm →
       isSoftModel sch rm = false →
       walkDeleteFields sch recurse model pk true tid o2oM o2oR (f :: rest) s =
         .err (.softDeleteException rm) s) ∧
    SoftDeleteModel.delete strictSchema 3 "productns" 1 true none none none c6St =
      .err (.softDeleteException "notsoft")
        { recs := c6St.recs, nextUuid := 1, clock := 2,
          events := [.preDelete "productns" 1, .preDelete "optionns" 11,
                     .postSoftDelete "optionns" 11] } := by
  constructor
  · intro sch recurse model pk tid o2oM o2oR rest s f rm hg hrel hsoft
    simp [walkDeleteFields, hg, hrel, hsoft, Res.andThen]
  · decide

/-- Witness for C6: the general conjunct applied to the `notsoft` reverse
relation of `productns` at the concrete scenario state. -/
theorem c6_strict_mode_violation_aborts_witness :
    walkDeleteFields strictSchema (SoftDeleteModel.delete strictSchema 0) "productns" 1
      true 0 none none
      [{ relatedModel := some "notsoft", oneToMany := true, name := "notsoft_set",
         remoteName := "product", onDelete := some .cascade }] c6St =
      .err (.softDeleteException "notsoft") c6St :=
  c6_strict_mode_violation_aborts.1 strictSchema (SoftDeleteModel.delete strictSchema 0)
    "productns" 1 0 none none [] c6St
    { relatedModel := some "notsoft", oneToMany := true, name := "notsoft_set",
      remoteName := "product", onDelete := some .cascade } "notsoft" rfl rfl (by decide)

/-- The code's bulk-delete loop and the spec's per-member sequence are the
same fold over the same snapshot. -/
theorem deleteEach_eq_specDeleteList (sch : Schema) (fuel : Nat) (strict : Bool) :
    ∀ (l : List Rec) (s : St),
      deleteEach sch fuel strict l s = specDeleteList sch fuel strict l s := by
  intro l
  induction l with
  | nil => intro s; rfl
  | cons r rest IH =>
    intro s
    simp only [deleteEach, specDeleteList, Res.andThen]
    cases SoftDeleteModel.delete sch fuel r.model r.pk strict none none none s with
    | ok s2 => exact IH s2
    | err e s2 => rfl

/-- C8: for every queryset over the Active view, the bulk delete iterates
the snapshot of matching records and invokes the single-record soft delete
on each (there is no direct bulk field update in the definition of
`SoftDeleteQuerySet.delete`), so it returns exactly the result of calling
single-record delete on each member of Q individually - in particular the
final Active and Deleted membership counts agree. -/
theorem c8_bulk_delete_equals_per_record :
    ∀ (sch : Schema) (fuel : Nat) (m : String) (pred : Rec → Bool) (strict : Bool) (s : St),
      SoftDeleteQuerySet.delete sch fuel m pred strict s =
        specPerMemberDelete sch fuel m pred strict s ∧
      (∀ s1 s2, SoftDeleteQuerySet.delete sch fuel m pred strict s = .ok s1 →
        specPerMemberDelete sch fuel m pred strict s = .ok s2 →
        activeCount s1 m = activeCount s2 m ∧ deletedCount s1 m = deletedCount s2 m) := by
  intro sch fuel m pred strict s
  have hEq : SoftDeleteQuerySet.delete sch fuel m pred strict s =
      specPerMemberDelete sch fuel m pred strict s :=
    deleteEach_eq_specDeleteList sch fuel strict (activeMembers s.recs m pred) s
  refine ⟨hEq, ?_⟩
  intro s1 s2 h1 h2
  rw [hEq] at h1
  rw [h1] at h2
  injection h2 with h3
  rw [h3]
  exact ⟨rfl, rfl⟩

/-- Witness for C8: the two-product fixture, bulk-deleted with fuel 3. -/
theorem c8_bulk_delete_equals_per_record_witness :
    SoftDeleteQuerySet.delete appSchema 3 "product" (fun _ => true) false c10St =
      specPerMemberDelete appSchema 3 "product" (fun _ => true) false c10St :=
  (c8_bulk_delete_equals_per_record appSchema 3 "product" (fun _ => true) false c10St).1

/-- C10: the Active-view bulk delete passes no transaction marker to the
per-record deletes (first conjunct: it is exactly the fold of
`SoftDeleteModel.delete` with `transaction_id = None` over the snapshot, so
each member draws its own fresh uuid).  In the two-product fixture the two
members end up with the distinct markers 0 and 1 together with their own
cascaded children, and a later restore of product 1 brings back product 1 and
option 11 while product 2 and option 12 stay soft-deleted. -/
theorem c10_bulk_members_get_fresh_distinct_markers :
    (∀ (sch : Schema) (fuel : Nat) (m : String) (pred : Rec → Bool) (strict : Bool) (s : St),
      SoftDeleteQuerySet.delete sch fuel m pred strict s =
        deleteEach sch fuel strict (activeMembers s.recs m pred) s) ∧
    SoftDeleteQuerySet.delete appSchema 3 "product" (fun _ => true) false c10St =
      .ok { recs := [
              { model := "product", pk := 1, deletedAt := some 0,
                transactionId := some 0, fks := [("category", none), ("landing", none)] },
              { model := "product", pk := 2, deletedAt := some 2,
                transactionId := some 1, fks := [("category", none), ("landing", none)] },
              { model := "option", pk := 11, deletedAt := some 1,
                transactionId := some 0, fks := [("product", some 1)] },
              { model := "option", pk := 12, deletedAt := some 3,
                transactionId := some 1, fks := [("product", some 2)] } ],
            nextUuid := 2, clock := 4,
            events := [.preDelete "product" 1, .preDelete "option" 11,
                       .postSoftDelete "option" 11, .postSoftDelete "product" 1,
                       .preDelete "product" 2, .preDelete "option" 12,
                       .postSoftDelete "option" 12, .postSoftDelete "product" 2] } ∧
    SoftDeleteModel.restore appSchema 3 "product" 1 true none
      { recs := [
          { model := "product", pk := 1, deletedAt := some 0,
            transactionId := some 0, fks := [("category", none), ("landing", none)] },
          { model := "product", pk := 2, deletedAt := some 2,
            transactionId := some 1, fks := [("category", none), ("landing", none)] },
          { model := "option", pk := 11, deletedAt := some 1,
            transactionId := some 0, fks := [("product", some 1)] },
          { model := "option", pk := 12, deletedAt := some 3,
            transactionId := some 1, fks := [("product", some 2)] } ],
        nextUuid := 2, clock := 4,
        events := [.preDelete "product" 1, .preDelete "option" 11,
                   .postSoftDelete "option" 11, .postSoftDelete "product" 1,
                   .preDelete "product" 2, .preDelete "option" 12,
                   .postSoftDelete "option" 12, .postSoftDelete "product" 2] } =
      .ok { recs := [
              { model := "product", pk := 1, deletedAt := none, restoredAt := some 4,
                transactionId := none, fks := [("category", none), ("landing", none)] },
              { model := "product", pk := 2, deletedAt := some 2,
                transactionId := some 1, fks := [("category", none), ("landing", none)] },
              { model := "option", pk := 11, deletedAt := none, restoredAt := some 5,
                transactionId := none, fks := [("product", some 1)] },
              { model := "option", pk := 12, deletedAt := some 3,
                transactionId := some 1, fks := [("product", some 2)] } ],
            nextUuid := 2, clock := 6,
            events := [.preDelete "product" 1, .preDelete "option" 11,
                       .postSoftDelete "option" 11, .postSoftDelete "product" 1,
                       .preDelete "product" 2, .preDelete "option" 12,
                       .postSoftDelete "option" 12, .postSoftDelete "product" 2,
                       .postRestore "option" 11, .postRestore "product" 1] } := by
  refine ⟨fun sch fuel m pred strict s => rfl, ?_, ?_⟩
  · decide
  · decide

/-- C2 (amended): the delete / restore round trip, for records whose delete
cascade reaches no one-to-one dependent.  For every such active record -
here a product with no landing and no children, with arbitrary primary key
`p` and arbitrary initial `restored_at` and `transaction_id` - soft-deleting
it and then restoring it yields the record with the same primary key,
`deleted_at = None`, a non-null `restored_at`, and the transaction marker
cleared to `None` by the restore.  (For a record with a one-to-one CASCADE
dependent the original claim fails: the delete completes but the restore
never does - see the C2 counterexample.) -/
theorem c2_delete_restore_round_trip :
    ∀ (p : PK) (r0 : Option Time) (t0 : Option Marker),
      (SoftDeleteModel.delete appSchema 1 "product" p false none none none
          (c2St p r0 t0)).andThen
        (fun s1 => SoftDeleteModel.restore appSchema 1 "product" p true none s1) =
      .ok { recs := [ { model := "product", pk := p, deletedAt := none,
                        restoredAt := some 1, transactionId := none,
                        fks := [("category", none), ("landing", none)] } ],
            nextUuid := 1, clock := 2,
            events := [.preDelete "product" p, .postSoftDelete "product" p,
                       .postRestore "product" p] } := by
  intro p r0 t0
  rw [show SoftDeleteModel.delete appSchema 1 = SoftDeleteModel.delete appSchema (0 + 1) from rfl,
    show SoftDeleteModel.restore appSchema 1 = SoftDeleteModel.restore appSchema (0 + 1) from rfl]
  simp [SoftDeleteModel.delete, SoftDeleteModel.restore, c2St, walkDeleteFields,
    walkRestoreFields, deleteRelatedOneToOne, deleteRelatedOneToMany,
    deleteRelatedObject, deleteChildList, restoreRelatedOneToOne,
    restoreRelatedOneToMany, restoreRelatedObject, restoreChildList,
    getO2ORelated, getRec, findFk, findReverseO2O, childrenOf, deletedChildrenTid,
    fieldsOf, findModel, isSoftModel, appSchema, categoryMeta, productMeta,
    landingMeta, optionMeta, orderMeta, leadMeta, save3Delete, save3Restore,
    mapRec, resave, atomic, Res.andThen, emit, tick, freshUuid]

/-- C1 (amended): restore scoping by transaction marker, for one-to-many
dependents.  For any distinct markers `M ≠ Mx` and any sufficient fuel,
`restore(product 1)` restores exactly the related soft-deleted records whose
stored marker equals the product's marker `M`: options 11 and 12 come back,
while option 13 (independently deleted under `Mx`, sharing the same foreign
key value) and the one-to-one landing 2 (also under `Mx`) keep their
`deleted_at` and their own marker. -/
theorem c1_restore_scoped_by_marker :
    ∀ (M Mx : Marker) (k : Nat), M ≠ Mx →
      SoftDeleteModel.restore appSchema (k + 3) "product" 1 true none (c1St M Mx) =
        .ok { recs := [
                { model := "product", pk := 1, deletedAt := none, restoredAt := some 60,
                  transactionId := none, fks := [("category", none), ("landing", some 2)] },
                { model := "landing", pk := 2, deletedAt := some 40,
                  transactionId := some Mx },
                { model := "option", pk := 11, deletedAt := none, restoredAt := some 61,
                  transactionId := none, fks := [("product", some 1)] },
                { model := "option", pk := 12, deletedAt := none, restoredAt := some 62,
                  transactionId := none, fks := [("product", some 1)] },
                { model := "option", pk := 13, deletedAt := some 40,
                  transactionId := some Mx, fks := [("product", some 1)] } ],
              nextUuid := 90, clock := 63,
              events := [.postRestore "option" 11, .postRestore "option" 12,
                         .postRestore "product" 1] } := by
  intro M Mx k h
  simp only [show k + 3 = k + 2 + 1 from rfl]
  simp [SoftDeleteModel.restore, c1St, walkRestoreFields, restoreRelatedOneToOne,
    restoreRelatedOneToMany, restoreRelatedObject, restoreChildList, getO2ORelated,
    getRec, findFk, findReverseO2O, deletedChildrenTid, fieldsOf, findModel,
    isSoftModel, appSchema, categoryMeta, productMeta, landingMeta, optionMeta,
    orderMeta, leadMeta, save3Restore, mapRec, resave, atomic, Res.andThen, emit,
    tick, freshUuid, Ne.symm h, show k + 2 = k + 1 + 1 from rfl]

/-- Witness for C1's amended theorem at markers 70 and 80 with no spare
fuel. -/
theorem c1_restore_scoped_by_marker_witness :
    SoftDeleteModel.restore appSchema 3 "product" 1 true none (c1St 70 80) =
      .ok { recs := [
              { model := "product", pk := 1, deletedAt := none, restoredAt := some 60,
                transactionId := none, fks := [("category", none), ("landing", some 2)] },
              { model := "landing", pk := 2, deletedAt := some 40,
                transactionId := some 80 },
              { model := "option", pk := 11, deletedAt := none, restoredAt := some 61,
                transactionId := none, fks := [("product", some 1)] },
              { model := "option", pk := 12, deletedAt := none, restoredAt := some 62,
                transactionId := none, fks := [("product", some 1)] },
              { model := "option", pk := 13, deletedAt := some 40,
                transactionId := some 80, fks := [("product", some 1)] } ],
            nextUuid := 90, clock := 63,
            events := [.postRestore "option" 11, .postRestore "option" 12,
                       .postRestore "product" 1] } :=
  c1_restore_scoped_by_marker 70 80 0 (by decide)

/-- Restoring either side of a one-to-one pair that was soft-deleted under
one shared marker never terminates, whatever the fuel: the restore walk has
no visited guard (unlike the delete walk), and each side re-loads the other
from storage - still soft-deleted with the matching marker, since neither
side's save has run yet - and restores it again. -/
theorem restore_o2o_pair_diverges :
    ∀ (fuel : Nat) (m : String) (pk : PK) (s : St),
      ((m = "product" ∧ pk = 1) ∨ (m = "landing" ∧ pk = 2)) →
      s.recs = c1o2oSt.recs →
      ∃ s', SoftDeleteModel.restore appSchema fuel m pk true (some 5) s =
        .err .outOfFuel s' := by
  intro fuel
  induction fuel with
  | zero =>
    intro m pk s hm hs
    exact ⟨s, rfl⟩
  | succ fuel IH =>
    intro m pk s hm hs
    obtain ⟨rs, u, c, E, F⟩ := s
    simp only [St.mk.injEq] at hs
    subst hs
    rcases hm with ⟨hm, hpk⟩ | ⟨hm, hpk⟩ <;> subst hm <;> subst hpk
    · obtain ⟨s2, h2⟩ := IH "landing" 2
        { recs := c1o2oSt.recs, nextUuid := u, clock := c + 1, events := E, failSaves := F }
        (Or.inr ⟨rfl, rfl⟩) rfl
      simp only [SoftDeleteModel.restore]
      simp [c1o2oSt, walkRestoreFields, restoreRelatedOneToOne, restoreRelatedObject,
        restoreRelatedOneToMany, restoreChildList, deletedChildrenTid, getO2ORelated,
        getRec, findFk, findReverseO2O, fieldsOf, findModel, isSoftModel, appSchema,
        categoryMeta, productMeta, landingMeta, optionMeta, orderMeta, leadMeta,
        atomic, Res.andThen, emit, tick] at h2 ⊢
      rw [h2]
      exact ⟨_, rfl⟩
    · obtain ⟨s2, h2⟩ := IH "product" 1
        { recs := c1o2oSt.recs, nextUuid := u, clock := c + 1, events := E, failSaves := F }
        (Or.inl ⟨rfl, rfl⟩) rfl
      simp only [SoftDeleteModel.restore]
      simp [c1o2oSt, walkRestoreFields, restoreRelatedOneToOne, restoreRelatedObject,
        restoreRelatedOneToMany, restoreChildList, deletedChildrenTid, getO2ORelated,
        getRec, findFk, findReverseO2O, fieldsOf, findModel, isSoftModel, appSchema,
        categoryMeta, productMeta, landingMeta, optionMeta, orderMeta, leadMeta,
        atomic, Res.andThen, emit, tick] at h2 ⊢
      rw [h2]
      exact ⟨_, rfl⟩

/-- C1 counterexample: the claim's statement fails for a one-to-one
dependent.  Product 1 and its landing 2 were soft-deleted together under
marker 5, so the claim requires `restore(product 1)` to restore landing 2 -
but the call never completes: no amount of fuel yields a successful result
(the Python code recurses between the two sides until the recursion limit). -/
theorem c1_counterexample_o2o_same_marker :
    ¬ ∃ (fuel : Nat) (s' : St),
      SoftDeleteModel.restore appSchema fuel "product" 1 true none c1o2oSt = .ok s' := by
  rintro ⟨fuel, s', h⟩
  cases fuel with
  | zero => simp [SoftDeleteModel.restore] at h
  | succ fuel =>
    obtain ⟨s2, h2⟩ := restore_o2o_pair_diverges fuel "landing" 2
      { recs := c1o2oSt.recs, nextUuid := 90, clock := 61, events := [], failSaves := [] }
      (Or.inr ⟨rfl, rfl⟩) rfl
    simp only [SoftDeleteModel.restore] at h
    simp [c1o2oSt, walkRestoreFields, restoreRelatedOneToOne, restoreRelatedObject,
      restoreRelatedOneToMany, restoreChildList, deletedChildrenTid, getO2ORelated,
      getRec, findFk, findReverseO2O, fieldsOf, findModel, isSoftModel, appSchema,
      categoryMeta, productMeta, landingMeta, optionMeta, orderMeta, leadMeta,
      atomic, Res.andThen, emit, tick] at h2 h
    rw [h2] at h
    simp at h

/-- C9 (amended): the delete cascade processes a reciprocal one-to-one
relationship exactly once from each declaration and terminates.  For any
sufficient fuel (uniformly in the surplus `k`), deleting product 1 visits
its landing through the forward declaration, and the landing's walk back
through the reverse declaration is skipped by the `o2o_model` / `o2o_remote`
visited marker (carried on the transaction id); symmetrically when the
delete starts from the landing.  Each record's signals fire exactly once. -/
theorem c9_reciprocal_o2o_processed_once :
    ∀ k : Nat,
      SoftDeleteModel.delete appSchema (k + 2) "product" 1 false none none none c9St =
        .ok { recs := [
                { model := "product", pk := 1, deletedAt := some 0, transactionId := some 0,
                  fks := [("category", none), ("landing", some 2)] },
                { model := "landing", pk := 2, deletedAt := some 1, transactionId := some 0 } ],
              nextUuid := 1, clock := 2,
              events := [.preDelete "product" 1, .preDelete "landing" 2,
                         .postSoftDelete "landing" 2, .postSoftDelete "product" 1] } ∧
      SoftDeleteModel.delete appSchema (k + 2) "landing" 2 false none none none c9St =
        .ok { recs := [
                { model := "product", pk := 1, deletedAt := some 1, transactionId := some 0,
                  fks := [("category", none), ("landing", some 2)] },
                { model := "landing", pk := 2, deletedAt := some 0, transactionId := some 0 } ],
              nextUuid := 1, clock := 2,
              events := [.preDelete "landing" 2, .preDelete "product" 1,
                         .postSoftDelete "product" 1, .postSoftDelete "landing" 2] } := by
  intro k
  constructor <;>
  · simp only [show k + 2 = k + 1 + 1 from rfl]
    simp [SoftDeleteModel.delete, c9St, walkDeleteFields, deleteRelatedOneToOne,
      deleteRelatedOneToMany, deleteRelatedObject, deleteChildList, getO2ORelated,
      getRec, findFk, findReverseO2O, childrenOf, fieldsOf, findModel, isSoftModel,
      appSchema, categoryMeta, productMeta, landingMeta, optionMeta, orderMeta,
      leadMeta, save3Delete, mapRec, resave, djangoDelete, removeRec, atomic,
      Res.andThen, emit, tick, freshUuid]

/-- Deleting any node of the three-model one-to-one cycle never terminates,
whatever the fuel: the `o2o_model` / `o2o_remote` pair only guards the
immediately preceding edge, so the cascade keeps walking the cycle through
the reverse declarations with no record ever marked visited. -/
theorem delete_o2o_cycle_diverges :
    ∀ (fuel : Nat) (m : String) (o2oM : Option Marker) (s : St),
      (m = "a" ∨ m = "b" ∨ m = "c") → s.recs = cycleSt.recs →
      ∃ s', SoftDeleteModel.delete cycleSchema fuel m 1 false (some 7) o2oM none s =
        .err .outOfFuel s' := by
  intro fuel
  induction fuel with
  | zero =>
    intro m o2oM s hm hs
    exact ⟨s, rfl⟩
  | succ fuel IH =>
    intro m o2oM s hm hs
    obtain ⟨rs, u, c, E, F⟩ := s
    simp only [St.mk.injEq] at hs
    subst hs
    rcases hm with hm | hm | hm <;> subst hm
    · obtain ⟨s2, h2⟩ := IH "c" (some 7)
        { recs := cycleSt.recs, nextUuid := u, clock := c + 1,
          events := E ++ [.preDelete "a" 1], failSaves := F }
        (Or.inr (Or.inr rfl)) rfl
      simp only [SoftDeleteModel.delete]
      simp [cycleSt, walkDeleteFields, deleteRelatedOneToOne, deleteRelatedObject,
        deleteRelatedOneToMany, deleteChildList, getO2ORelated, getRec, findFk,
        findReverseO2O, childrenOf, fieldsOf, findModel, isSoftModel, cycleSchema,
        cycleMeta, atomic, Res.andThen, emit, tick, freshUuid] at h2 ⊢
      rw [h2]
      exact ⟨_, rfl⟩
    · obtain ⟨s2, h2⟩ := IH "a" (some 7)
        { recs := cycleSt.recs, nextUuid := u, clock := c + 1,
          events := E ++ [.preDelete "b" 1], failSaves := F }
        (Or.inl rfl) rfl
      simp only [SoftDeleteModel.delete]
      simp [cycleSt, walkDeleteFields, deleteRelatedOneToOne, deleteRelatedObject,
        deleteRelatedOneToMany, deleteChildList, getO2ORelated, getRec, findFk,
        findReverseO2O, childrenOf, fieldsOf, findModel, isSoftModel, cycleSchema,
        cycleMeta, atomic, Res.andThen, emit, tick, freshUuid] at h2 ⊢
      rw [h2]
      exact ⟨_, rfl⟩
    · obtain ⟨s2, h2⟩ := IH "b" (some 7)
        { recs := cycleSt.recs, nextUuid := u, clock := c + 1,
          events := E ++ [.preDelete "c" 1], failSaves := F }
        (Or.inr (Or.inl rfl)) rfl
      simp only [SoftDeleteModel.delete]
      simp [cycleSt, walkDeleteFields, deleteRelatedOneToOne, deleteRelatedObject,
        deleteRelatedOneToMany, deleteChildList, getO2ORelated, getRec, findFk,
        findReverseO2O, childrenOf, fieldsOf, findModel, isSoftModel, cycleSchema,
        cycleMeta, atomic, Res.andThen, emit, tick, freshUuid] at h2 ⊢
      rw [h2]
      exact ⟨_, rfl⟩

/-- C9 counterexample: on the cyclic (three-node) one-to-one graph the
cascade does not terminate - no amount of fuel makes `delete(a 1)` return
successfully, refuting the claim's "terminates on cyclic ... one-to-one
relationship graphs" beyond the reciprocal two-node case. -/
theorem c9_counterexample_three_cycle :
    ¬ ∃ (fuel : Nat) (s' : St),
      SoftDeleteModel.delete cycleSchema fuel "a" 1 false none none none cycleSt = .ok s' := by
  rintro ⟨fuel, s', h⟩
  cases fuel with
  | zero => simp [SoftDeleteModel.delete] at h
  | succ fuel =>
    obtain ⟨s2, h2⟩ := delete_o2o_cycle_diverges fuel "c" (some 7)
      { recs := cycleSt.recs, nextUuid := 8, clock := 1,
        events := [.preDelete "a" 1], failSaves := [] }
      (Or.inr (Or.inr rfl)) rfl
    simp only [SoftDeleteModel.delete] at h
    simp [cycleSt, walkDeleteFields, deleteRelatedOneToOne, deleteRelatedObject,
      deleteRelatedOneToMany, deleteChildList, getO2ORelated, getRec, findFk,
      findReverseO2O, childrenOf, fieldsOf, findModel, isSoftModel, cycleSchema,
      cycleMeta, atomic, Res.andThen, emit, tick, freshUuid] at h2 h
    rw [h2] at h
    simp at h

/-- Membership in a `mapRec` image: either an untouched row or the image of
a matching row. -/
theorem mem_mapRec {recs : List Rec} {m : String} {pk : PK} {f : Rec → Rec} {r : Rec}
    (h : r ∈ mapRec recs m pk f) : r ∈ recs ∨ ∃ a, a ∈ recs ∧ r = f a := by
  rcases List.mem_map.1 (by simpa [mapRec] using h) with ⟨a, ha, hEq⟩
  by_cases hc : a.model = m ∧ a.pk = pk
  · exact Or.inr ⟨a, ha, by rw [← hEq, if_pos hc]⟩
  · refine Or.inl ?_
    rw [← hEq, if_neg hc]
    exact ha

/-- `removeRec` only removes rows. -/
theorem mem_removeRec {recs : List Rec} {m : String} {pk : PK} {r : Rec} :
    r ∈ removeRec recs m pk → r ∈ recs := by
  induction recs with
  | nil => intro h; simp [removeRec] at h
  | cons x rest IH =>
    intro h
    by_cases hc : x.model = m ∧ x.pk = pk
    · rw [removeRec, if_pos hc] at h
      exact List.mem_cons_of_mem x (IH h)
    · rw [removeRec, if_neg hc] at h
      rcases List.mem_cons.1 h with h | h
      · simp [h]
      · exact List.mem_cons_of_mem x (IH h)

/-- Invariant preservation composes through `Res.andThen`. -/
theorem resInv_andThen {r : Res} {f : St → Res}
    (h1 : resInv r) (h2 : ∀ s, stInv s → resInv (f s)) : resInv (r.andThen f) := by
  cases r with
  | ok s => exact h2 s h1
  | err e s => exact h1

/-- The atomic scope preserves the invariant: a completed body does, and a
rollback restores the (invariant) entry rows. -/
theorem resInv_atomic {s0 : St} {f : St → Res}
    (h0 : stInv s0) (h : ∀ s, stInv s → resInv (f s)) : resInv (atomic s0 f) := by
  unfold atomic
  cases hf : f s0 with
  | ok s =>
    have hh := h s0 h0
    rw [hf] at hh
    exact hh
  | err e s =>
    intro r hr
    exact h0 r hr

/-- The root save of a delete writes `deleted_at = now`, `restored_at =
None`: mutual exclusion holds on every row afterwards. -/
theorem resInv_save3Delete {s : St} {m : String} {pk : PK} {now : Time} {tid : Marker}
    (hs : stInv s) : resInv (save3Delete s m pk now tid) := by
  unfold save3Delete
  split
  · exact hs
  · intro r hr
    rcases mem_mapRec hr with h | ⟨a, _, rfl⟩
    · exact hs r h
    · exact Or.inr rfl

/-- The root save of a restore writes `deleted_at = None`: mutual exclusion
holds on every row afterwards. -/
theorem resInv_save3Restore {s : St} {m : String} {pk : PK} {now : Time}
    (hs : stInv s) : resInv (save3Restore s m pk now) := by
  unfold save3Restore
  split
  · exact hs
  · intro r hr
    rcases mem_mapRec hr with h | ⟨a, _, rfl⟩
    · exact hs r h
    · exact Or.inl rfl

/-- Rewriting a foreign key touches neither timestamp. -/
theorem resInv_saveSetFk {s : St} {relObj : Rec} {attr : String} {v : Option PK}
    (hs : stInv s) : resInv (saveSetFk s relObj attr v) := by
  unfold saveSetFk
  split
  · exact hs
  · intro r hr
    rcases mem_mapRec hr with h | ⟨a, ha, rfl⟩
    · exact hs r h
    · exact hs a ha

/-- The trailing full save is a stored-state no-op (or a failure). -/
theorem resInv_resave {s : St} {m : String} (hs : stInv s) : resInv (resave s m) := by
  unfold resave
  split
  · exact hs
  · exact hs

/-- A physical Django delete only removes a row. -/
theorem resInv_djangoDelete {s : St} {r : Rec} (hs : stInv s) :
    resInv (djangoDelete s r) := by
  unfold djangoDelete
  intro x hx
  exact hs x (mem_removeRec (by simpa [emit] using hx))

/-- `__delete_related_object` preserves the invariant, given that the nested
delete call does. -/
theorem resInv_deleteRelatedObject {sch : Schema}
    {recurse : String → PK → Bool → Option Marker → Option Marker → Option Marker → St → Res}
    {selfModel : String} {selfPk : PK} {f : ModelField} {relObj : Rec}
    {strict : Bool} {tid : Marker} {o2oM o2oR : Option Marker} {s : St}
    (hrec : ∀ m pk st t? a b s', stInv s' → resInv (recurse m pk st t? a b s'))
    (hs : stInv s) :
    resInv (deleteRelatedObject sch recurse selfModel selfPk f relObj strict tid o2oM o2oR s) := by
  simp only [deleteRelatedObject]
  split
  · exact hs
  · apply resInv_andThen
    · split
      · split
        · exact hrec _ _ _ _ _ _ _ hs
        · exact resInv_djangoDelete hs
      · exact resInv_saveSetFk hs
      · exact hs
      · exact resInv_saveSetFk hs
      · split
        · exact resInv_saveSetFk hs
        · exact hs
      · exact hs
      · exact hs
      · split
        · exact hrec _ _ _ _ _ _ _ hs
        · exact resInv_djangoDelete hs
    · intro s2 hs2
      split
      · exact hs2
      · exact resInv_resave hs2

/-- The one-to-one delete walk preserves the invariant. -/
theorem resInv_deleteRelatedOneToOne {sch : Schema}
    {recurse : String → PK → Bool → Option Marker → Option Marker → Option Marker → St → Res}
    {selfModel : String} {selfPk : PK} {f : ModelField} {rm : String}
    {strict : Bool} {tid : Marker} {o2oM o2oR : Option Marker} {s : St}
    (hrec : ∀ m pk st t? a b s', stInv s' → resInv (recurse m pk st t? a b s'))
    (hs : stInv s) :
    resInv (deleteRelatedOneToOne sch recurse selfModel selfPk f rm strict tid o2oM o2oR s) := by
  unfold deleteRelatedOneToOne
  split
  · exact hs
  · split
    · split
      · exact resInv_deleteRelatedObject hrec hs
      · exact hs
    · split
      · split
        · exact resInv_deleteRelatedObject hrec hs
        · exact hs
      · exact hs

/-- The child loop of the one-to-many delete walk preserves the invariant. -/
theorem resInv_deleteChildList {sch : Schema}
    {recurse : String → PK → Bool → Option Marker → Option Marker → Option Marker → St → Res}
    {selfModel : String} {selfPk : PK} {f : ModelField}
    {strict : Bool} {tid : Marker} {o2oM o2oR : Option Marker}
    (hrec : ∀ m pk st t? a b s', stInv s' → resInv (recurse m pk st t? a b s')) :
    ∀ (l : List Rec) (s : St), stInv s →
      resInv (deleteChildList sch recurse selfModel selfPk f strict tid o2oM o2oR l s) := by
  intro l
  induction l with
  | nil => intro s hs; exact hs
  | cons c rest IH =>
    intro s hs
    simp only [deleteChildList]
    exact resInv_andThen (resInv_deleteRelatedObject hrec hs) (fun s2 hs2 => IH s2 hs2)

/-- The field loop of `SoftDeleteModel.delete` preserves the invariant. -/
theorem resInv_walkDeleteFields {sch : Schema}
    {recurse : String → PK → Bool → Option Marker → Option Marker → Option Marker → St → Res}
    {selfModel : String} {selfPk : PK}
    {strict : Bool} {tid : Marker} {o2oM o2oR : Option Marker}
    (hrec : ∀ m pk st t? a b s', stInv s' → resInv (recurse m pk st t? a b s')) :
    ∀ (fs : List ModelField) (s : St), stInv s →
      resInv (walkDeleteFields sch recurse selfModel selfPk strict tid o2oM o2oR fs s) := by
  intro fs
  induction fs with
  | nil => intro s hs; exact hs
  | cons f rest IH =>
    intro s hs
    simp only [walkDeleteFields]
    apply resInv_andThen
    · split
      · exact hs
      · split
        · exact hs
        · split
          · exact hs
          · split
            · exact resInv_deleteRelatedOneToOne hrec hs
            · split
              · exact resInv_deleteChildList hrec
                  (childrenOf s.recs _ _ selfPk (isSoftModel sch _)) s hs
              · exact hs
    · intro s2 hs2
      exact IH s2 hs2

/-- `SoftDeleteModel.delete` preserves the invariant, for every schema, every
fuel, and every argument list, whether it completes or raises. -/
theorem resInv_delete (sch : Schema) :
    ∀ (fuel : Nat) (m : String) (pk : PK) (strict : Bool)
      (tid? o2oM o2oR : Option Marker) (s : St), stInv s →
      resInv (SoftDeleteModel.delete sch fuel m pk strict tid? o2oM o2oR s) := by
  intro fuel
  induction fuel with
  | zero => intro m pk strict tid? o2oM o2oR s hs; exact hs
  | succ fuel IH =>
    intro m pk strict tid? o2oM o2oR s hs
    cases tid? with
    | some t =>
      simp only [SoftDeleteModel.delete]
      apply resInv_atomic
      · intro r hr
        exact hs r hr
      · intro s1 hs1
        apply resInv_andThen
          (resInv_walkDeleteFields (fun m' pk' st t? a b s' hh => IH m' pk' st t? a b s' hh)
            (fieldsOf sch m) s1 hs1)
        intro s4 hs4
        apply resInv_andThen (resInv_save3Delete hs4)
        intro s5 hs5
        intro r hr
        exact hs5 r hr
    | none =>
      simp only [SoftDeleteModel.delete]
      apply resInv_atomic
      · intro r hr
        exact hs r hr
      · intro s1 hs1
        apply resInv_andThen
          (resInv_walkDeleteFields (fun m' pk' st t? a b s' hh => IH m' pk' st t? a b s' hh)
            (fieldsOf sch m) s1 hs1)
        intro s4 hs4
        apply resInv_andThen (resInv_save3Delete hs4)
        intro s5 hs5
        intro r hr
        exact hs5 r hr

/-- `__restore_related_object` preserves the invariant, given that the
nested restore call does. -/
theorem resInv_restoreRelatedObject {sch : Schema}
    {recurse : String → PK → Bool → Option Marker → St → Res}
    {r : Rec} {strict : Bool} {tid : Option Marker} {s : St}
    (hrec : ∀ m pk st t? s', stInv s' → resInv (recurse m pk st t? s'))
    (hs : stInv s) :
    resInv (restoreRelatedObject sch recurse r strict tid s) := by
  unfold restoreRelatedObject
  split
  · apply resInv_andThen (hrec _ _ _ _ _ hs)
    intro s2 hs2
    exact resInv_resave hs2
  · exact hs

/-- The one-to-one restore walk preserves the invariant. -/
theorem resInv_restoreRelatedOneToOne {sch : Schema}
    {recurse : String → PK → Bool → Option Marker → St → Res}
    {selfModel : String} {selfPk : PK} {f : ModelField} {rm : String}
    {strict : Bool} {tid : Option Marker} {s : St}
    (hrec : ∀ m pk st t? s', stInv s' → resInv (recurse m pk st t? s'))
    (hs : stInv s) :
    resInv (restoreRelatedOneToOne sch recurse selfModel selfPk f rm strict tid s) := by
  unfold restoreRelatedOneToOne
  split
  · exact hs
  · split
    · exact resInv_restoreRelatedObject hrec hs
    · exact hs

/-- The child loop of the one-to-many restore walk preserves the invariant. -/
theorem resInv_restoreChildList {sch : Schema}
    {recurse : String → PK → Bool → Option Marker → St → Res}
    {strict : Bool} {tid : Option Marker}
    (hrec : ∀ m pk st t? s', stInv s' → resInv (recurse m pk st t? s')) :
    ∀ (l : List Rec) (s : St), stInv s →
      resInv (restoreChildList sch recurse strict tid l s) := by
  intro l
  induction l with
  | nil => intro s hs; exact hs
  | cons c rest IH =>
    intro s hs
    simp only [restoreChildList]
    exact resInv_andThen (resInv_restoreRelatedObject hrec hs) (fun s2 hs2 => IH s2 hs2)

/-- The one-to-many restore walk preserves the invariant. -/
theorem resInv_restoreRelatedOneToMany {sch : Schema}
    {recurse : String → PK → Bool → Option Marker → St → Res}
    {selfModel : String} {selfPk : PK} {f : ModelField} {rm : String}
    {strict : Bool} {tid : Option Marker} {s : St}
    (hrec : ∀ m pk st t? s', stInv s' → resInv (recurse m pk st t? s'))
    (hs : stInv s) :
    resInv (restoreRelatedOneToMany sch recurse selfModel selfPk f rm strict tid s) := by
  unfold restoreRelatedOneToMany
  split
  · exact hs
  · exact resInv_restoreChildList hrec _ s hs

/-- Transport of the one-to-many restore walk's invariant along an equation
on its result (used inside the `except ValueError: continue` case split). -/
theorem resInv_of_restoreO2M_eq {sch : Schema}
    {recurse : String → PK → Bool → Option Marker → St → Res}
    {selfModel : String} {selfPk : PK} {f : ModelField} {rm : String}
    {strict : Bool} {tid : Option Marker} {s : St} {r : Res}
    (heq : restoreRelatedOneToMany sch recurse selfModel selfPk f rm strict tid s = r)
    (hrec : ∀ m pk st t? s', stInv s' → resInv (recurse m pk st t? s'))
    (hs : stInv s) : resInv r := by
  have hh := @resInv_restoreRelatedOneToMany sch recurse selfModel selfPk f rm strict tid s hrec hs
  rw [heq] at hh
  exact hh

/-- The field loop of `SoftDeleteModel.restore` preserves the invariant. -/
theorem resInv_walkRestoreFields {sch : Schema}
    {recurse : String → PK → Bool → Option Marker → St → Res}
    {selfModel : String} {selfPk : PK} {strict : Bool} {tid : Option Marker}
    (hrec : ∀ m pk st t? s', stInv s' → resInv (recurse m pk st t? s')) :
    ∀ (fs : List ModelField) (s : St), stInv s →
      resInv (walkRestoreFields sch recurse selfModel selfPk strict tid fs s) := by
  intro fs
  induction fs with
  | nil => intro s hs; exact hs
  | cons f rest IH =>
    intro s hs
    simp only [walkRestoreFields]
    apply resInv_andThen
    · split
      · exact hs
      · split
        · exact hs
        · split
          · exact hs
          · split
            · exact resInv_restoreRelatedOneToOne hrec hs
            · split
              · split
                · rename_i heq
                  have hh := resInv_of_restoreO2M_eq heq hrec hs
                  exact hh
                · exact resInv_restoreRelatedOneToMany hrec hs
              · exact hs
    · intro s2 hs2
      exact IH s2 hs2

/-- `SoftDeleteModel.restore` preserves the invariant, for every schema,
fuel and argument list, whether it completes or raises. -/
theorem resInv_restore (sch : Schema) :
    ∀ (fuel : Nat) (m : String) (pk : PK) (strict : Bool)
      (tid? : Option Marker) (s : St), stInv s →
      resInv (SoftDeleteModel.restore sch fuel m pk strict tid? s) := by
  intro fuel
  induction fuel with
  | zero => intro m pk strict tid? s hs; exact hs
  | succ fuel IH =>
    intro m pk strict tid? s hs
    simp only [SoftDeleteModel.restore]
    apply resInv_atomic
    · intro r hr
      exact hs r hr
    · intro s1 hs1
      apply resInv_andThen
        (resInv_walkRestoreFields (fun m' pk' st t? s' hh => IH m' pk' st t? s' hh)
          (fieldsOf sch m) s1 hs1)
      intro s2 hs2
      apply resInv_andThen (resInv_save3Restore hs2)
      intro s3 hs3
      intro r hr
      exact hs3 r hr

/-- A `mapRec` update determines the fields of every resulting row at the
targeted model and primary key, whenever the update does not change model or
pk and forces the property. -/
theorem mapRec_at_target {f : Rec → Rec} {m : String} {pk : PK} (P : Rec → Prop)
    (hkeep : ∀ a, (f a).model = a.model ∧ (f a).pk = a.pk)
    (hset : ∀ a, P (f a)) :
    ∀ (recs : List Rec), ∀ r ∈ mapRec recs m pk f, r.model = m ∧ r.pk = pk → P r := by
  intro recs
  induction recs with
  | nil => intro r hr; simp [mapRec] at hr
  | cons a rest IH =>
    intro r hr hc
    simp only [mapRec, List.map_cons, List.mem_cons] at hr
    rcases hr with hr | hr
    · by_cases hca : a.model = m ∧ a.pk = pk
      · rw [hr, if_pos hca]
        exact hset a
      · rw [hr, if_neg hca] at hc
        exact absurd hc hca
    · exact IH r hr hc

/-- C7: the mutual-exclusion invariant.  Conjuncts 1 and 2: both
`SoftDeleteModel.delete` and `SoftDeleteModel.restore` preserve, over every
schema, every fuel and every argument list - whether the operation completes
or ends in a rolled-back exception - the invariant that no stored record has
`deleted_at` and `restored_at` both non-null.  Conjuncts 3 and 4: the delete
save writes `deleted_at = now`, `restored_at = None` and the marker, and the
restore save writes `deleted_at = None`, `restored_at = now` and clears the
marker, on every stored row with the root's model and primary key. -/
theorem c7_deleted_restored_mutual_exclusion :
    (∀ (sch : Schema) (fuel : Nat) (m : String) (pk : PK) (strict : Bool)
       (tid? o2oM o2oR : Option Marker) (s : St), stInv s →
       resInv (SoftDeleteModel.delete sch fuel m pk strict tid? o2oM o2oR s)) ∧
    (∀ (sch : Schema) (fuel : Nat) (m : String) (pk : PK) (strict : Bool)
       (tid? : Option Marker) (s : St), stInv s →
       resInv (SoftDeleteModel.restore sch fuel m pk strict tid? s)) ∧
    (∀ (s : St) (m : String) (pk : PK) (now : Time) (tid : Marker) (s' : St),
       save3Delete s m pk now tid = .ok s' →
       ∀ r ∈ s'.recs, r.model = m ∧ r.pk = pk →
         r.deletedAt = some now ∧ r.restoredAt = none ∧ r.transactionId = some tid) ∧
    (∀ (s : St) (m : String) (pk : PK) (now : Time) (s' : St),
       save3Restore s m pk now = .ok s' →
       ∀ r ∈ s'.recs, r.model = m ∧ r.pk = pk →
         r.deletedAt = none ∧ r.restoredAt = some now ∧ r.transactionId = none) := by
  refine ⟨?_, ?_, ?_, ?_⟩
  · intro sch fuel m pk strict tid? o2oM o2oR s hs
    exact resInv_delete sch fuel m pk strict tid? o2oM o2oR s hs
  · intro sch fuel m pk strict tid? s hs
    exact resInv_restore sch fuel m pk strict tid? s hs
  · intro s m pk now tid s' h
    unfold save3Delete at h
    split at h
    · exact absurd h (by simp)
    · injection h with h1
      intro r hr hc
      rw [← h1] at hr
      exact @mapRec_at_target
        (fun a => { a with deletedAt := some now, restoredAt := none,
                           transactionId := some tid }) m pk
        (fun r => r.deletedAt = some now ∧ r.restoredAt = none ∧ r.transactionId = some tid)
        (fun a => ⟨rfl, rfl⟩) (fun a => ⟨rfl, rfl, rfl⟩) s.recs r hr hc
  · intro s m pk now s' h
    unfold save3Restore at h
    split at h
    · exact absurd h (by simp)
    · injection h with h1
      intro r hr hc
      rw [← h1] at hr
      exact @mapRec_at_target
        (fun a => { a with deletedAt := none, restoredAt := some now,
                           transactionId := none }) m pk
        (fun r => r.deletedAt = none ∧ r.restoredAt = some now ∧ r.transactionId = none)
        (fun a => ⟨rfl, rfl⟩) (fun a => ⟨rfl, rfl, rfl⟩) s.recs r hr hc

/-- Witness for C7: the invariant holds after the PROTECT-rollback delete on
the C3 fixture and after the scoped restore on the C1 fixture, and the two
saves behave as stated on the C5 fixture. -/
theorem c7_deleted_restored_mutual_exclusion_witness :
    resInv (SoftDeleteModel.delete appSchema 3 "product" 1 false none none none c3St) ∧
    resInv (SoftDeleteModel.restore appSchema 3 "product" 1 true none (c1St 70 80)) :=
  ⟨c7_deleted_restored_mutual_exclusion.1 appSchema 3 "product" 1 false none none none
     c3St (by decide),
   c7_deleted_restored_mutual_exclusion.2.1 appSchema 3 "product" 1 true none
     (c1St 70 80) (by decide)⟩

/-- Restoring either side of the round-trip mid state - product 1 and its
landing 2 soft-deleted together under the single fresh marker 0 - never
terminates, whatever the fuel: the restore walk has no visited guard, and
each side re-loads the other from storage (still soft-deleted, with the
matching marker, since neither side's save has run yet) and restores it
again. -/
theorem restore_c2MidSt_diverges :
    ∀ (fuel : Nat) (m : String) (pk : PK) (s : St),
      ((m = "product" ∧ pk = 1) ∨ (m = "landing" ∧ pk = 2)) →
      s.recs = c2MidSt.recs →
      ∃ s', SoftDeleteModel.restore appSchema fuel m pk true (some 0) s =
        .err .outOfFuel s' := by
  intro fuel
  induction fuel with
  | zero =>
    intro m pk s hm hs
    exact ⟨s, rfl⟩
  | succ fuel IH =>
    intro m pk s hm hs
    obtain ⟨rs, u, c, E, F⟩ := s
    simp only [St.mk.injEq] at hs
    subst hs
    rcases hm with ⟨hm, hpk⟩ | ⟨hm, hpk⟩ <;> subst hm <;> subst hpk
    · obtain ⟨s2, h2⟩ := IH "landing" 2
        { recs := c2MidSt.recs, nextUuid := u, clock := c + 1, events := E, failSaves := F }
        (Or.inr ⟨rfl, rfl⟩) rfl
      simp only [SoftDeleteModel.restore]
      simp [c2MidSt, walkRestoreFields, restoreRelatedOneToOne, restoreRelatedObject,
        restoreRelatedOneToMany, restoreChildList, deletedChildrenTid, getO2ORelated,
        getRec, findFk, findReverseO2O, fieldsOf, findModel, isSoftModel, appSchema,
        categoryMeta, productMeta, landingMeta, optionMeta, orderMeta, leadMeta,
        atomic, Res.andThen, emit, tick] at h2 ⊢
      rw [h2]
      exact ⟨_, rfl⟩
    · obtain ⟨s2, h2⟩ := IH "product" 1
        { recs := c2MidSt.recs, nextUuid := u, clock := c + 1, events := E, failSaves := F }
        (Or.inl ⟨rfl, rfl⟩) rfl
      simp only [SoftDeleteModel.restore]
      simp [c2MidSt, walkRestoreFields, restoreRelatedOneToOne, restoreRelatedObject,
        restoreRelatedOneToMany, restoreChildList, deletedChildrenTid, getO2ORelated,
        getRec, findFk, findReverseO2O, fieldsOf, findModel, isSoftModel, appSchema,
        categoryMeta, productMeta, landingMeta, optionMeta, orderMeta, leadMeta,
        atomic, Res.andThen, emit, tick] at h2 ⊢
      rw [h2]
      exact ⟨_, rfl⟩

/-- C2 counterexample: the round trip fails for an active record with a
one-to-one dependent.  Soft-deleting product 1 of the `c9St` fixture (an
active product with its landing) completes, tagging both records with the
single fresh marker 0 - but the subsequent `restore(product 1)` never
completes for any amount of fuel (the Python code recurses between the two
one-to-one sides until the recursion limit, the atomic scope rolls back, and
the record stays soft-deleted), so `restore(soft_delete(r))` yields no
record with `deleted_at = null` at all. -/
theorem c2_counterexample_o2o_round_trip :
    SoftDeleteModel.delete appSchema 2 "product" 1 false none none none c9St =
      .ok c2MidSt ∧
    ¬ ∃ (fuel : Nat) (s' : St),
      SoftDeleteModel.restore appSchema fuel "product" 1 true none c2MidSt = .ok s' := by
  constructor
  · decide
  · rintro ⟨fuel, s', h⟩
    cases fuel with
    | zero => simp [SoftDeleteModel.restore] at h
    | succ fuel =>
      obtain ⟨s2, h2⟩ := restore_c2MidSt_diverges fuel "landing" 2
        { recs := c2MidSt.recs, nextUuid := 1, clock := 3,
          events := [.preDelete "product" 1, .preDelete "landing" 2,
                     .postSoftDelete "landing" 2, .postSoftDelete "product" 1],
          failSaves := [] }
        (Or.inr ⟨rfl, rfl⟩) rfl
      simp only [SoftDeleteModel.restore] at h
      simp [c2MidSt, walkRestoreFields, restoreRelatedOneToOne, restoreRelatedObject,
        restoreRelatedOneToMany, restoreChildList, deletedChildrenTid, getO2ORelated,
        getRec, findFk, findReverseO2O, fieldsOf, findModel, isSoftModel, appSchema,
        categoryMeta, productMeta, landingMeta, optionMeta, orderMeta, leadMeta,
        atomic, Res.andThen, emit, tick] at h2 h
      rw [h2] at h
      simp at h
